import Mathlib

/-!
Verification of the server-side state store of flask-newui (`newui/stores.py`)
and the component-id generator of `newui/core/state.py`, via a shallow
embedding of the Python code into Lean.

Python values flowing through the store are JSON-like trees: `None`, `bool`,
`int`, `str`, `list`, `dict`.  They are embedded as the inductive type `Val`
below (floats do not occur in any of the verified code paths and are omitted).
Python `dict`s are embedded as association lists whose key order models the
insertion order of the Python dict; lookups and updates work on the first
occurrence of a key, so association lists with duplicate keys behave exactly
like the duplicate-free ones actually produced by the code.

Fallible Python code (statements that can raise) is embedded with
`Except String`, the error string naming the exception class raised.
`copy.deepcopy` is the identity on these immutable functional trees.
-/

inductive Val : Type where
  | null : Val
  | bool : Bool → Val
  | int : Int → Val
  | str : String → Val
  | list : List Val → Val
  | dict : List (String × Val) → Val

mutual

def Val.decEq : (a b : Val) → Decidable (a = b)
  | .null, .null => isTrue rfl
  | .bool x, .bool y =>
      match Bool.decEq x y with
      | isTrue h => isTrue (h ▸ rfl)
      | isFalse h => isFalse (fun e => h (Val.bool.inj e))
  | .int x, .int y =>
      match Int.decEq x y with
      | isTrue h => isTrue (h ▸ rfl)
      | isFalse h => isFalse (fun e => h (Val.int.inj e))
  | .str x, .str y =>
      match String.decEq x y with
      | isTrue h => isTrue (h ▸ rfl)
      | isFalse h => isFalse (fun e => h (Val.str.inj e))
  | .list xs, .list ys =>
      match Val.decEqList xs ys with
      | isTrue h => isTrue (h ▸ rfl)
      | isFalse h => isFalse (fun e => h (Val.list.inj e))
  | .dict xs, .dict ys =>
      match Val.decEqFields xs ys with
      | isTrue h => isTrue (h ▸ rfl)
      | isFalse h => isFalse (fun e => h (Val.dict.inj e))
  | .null, .bool _ => isFalse (fun h => Val.noConfusion h)
  | .null, .int _ => isFalse (fun h => Val.noConfusion h)
  | .null, .str _ => isFalse (fun h => Val.noConfusion h)
  | .null, .list _ => isFalse (fun h => Val.noConfusion h)
  | .null, .dict _ => isFalse (fun h => Val.noConfusion h)
  | .bool _, .null => isFalse (fun h => Val.noConfusion h)
  | .bool _, .int _ => isFalse (fun h => Val.noConfusion h)
  | .bool _, .str _ => isFalse (fun h => Val.noConfusion h)
  | .bool _, .list _ => isFalse (fun h => Val.noConfusion h)
  | .bool _, .dict _ => isFalse (fun h => Val.noConfusion h)
  | .int _, .null => isFalse (fun h => Val.noConfusion h)
  | .int _, .bool _ => isFalse (fun h => Val.noConfusion h)
  | .int _, .str _ => isFalse (fun h => Val.noConfusion h)
  | .int _, .list _ => isFalse (fun h => Val.noConfusion h)
  | .int _, .dict _ => isFalse (fun h => Val.noConfusion h)
  | .str _, .null => isFalse (fun h => Val.noConfusion h)
  | .str _, .bool _ => isFalse (fun h => Val.noConfusion h)
  | .str _, .int _ => isFalse (fun h => Val.noConfusion h)
  | .str _, .list _ => isFalse (fun h => Val.noConfusion h)
  | .str _, .dict _ => isFalse (fun h => Val.noConfusion h)
  | .list _, .null => isFalse (fun h => Val.noConfusion h)
  | .list _, .bool _ => isFalse (fun h => Val.noConfusion h)
  | .list _, .int _ => isFalse (fun h => Val.noConfusion h)
  | .list _, .str _ => isFalse (fun h => Val.noConfusion h)
  | .list _, .dict _ => isFalse (fun h => Val.noConfusion h)
  | .dict _, .null => isFalse (fun h => Val.noConfusion h)
  | .dict _, .bool _ => isFalse (fun h => Val.noConfusion h)
  | .dict _, .int _ => isFalse (fun h => Val.noConfusion h)
  | .dict _, .str _ => isFalse (fun h => Val.noConfusion h)
  | .dict _, .list _ => isFalse (fun h => Val.noConfusion h)

def Val.decEqList : (xs ys : List Val) → Decidable (xs = ys)
  | [], [] => isTrue rfl
  | [], _ :: _ => isFalse (fun h => List.noConfusion h)
  | _ :: _, [] => isFalse (fun h => List.noConfusion h)
  | x :: xs, y :: ys =>
      match Val.decEq x y with
      | isFalse h => isFalse (fun e => h (List.cons.inj e).1)
      | isTrue h1 =>
          match Val.decEqList xs ys with
          | isTrue h2 => isTrue (h1 ▸ h2 ▸ rfl)
          | isFalse h => isFalse (fun e => h (List.cons.inj e).2)

def Val.decEqFields : (xs ys : List (String × Val)) → Decidable (xs = ys)
  | [], [] => isTrue rfl
  | [], _ :: _ => isFalse (fun h => List.noConfusion h)
  | _ :: _, [] => isFalse (fun h => List.noConfusion h)
  | (k, x) :: xs, (l, y) :: ys =>
      match String.decEq k l with
      | isFalse h => isFalse (fun e => h (congrArg Prod.fst (List.cons.inj e).1))
      | isTrue hk =>
          match Val.decEq x y with
          | isFalse h => isFalse (fun e => h (congrArg Prod.snd (List.cons.inj e).1))
          | isTrue hv =>
              match Val.decEqFields xs ys with
              | isTrue ht => isTrue (hk ▸ hv ▸ ht ▸ rfl)
              | isFalse h => isFalse (fun e => h (List.cons.inj e).2)

end

instance : DecidableEq Val := Val.decEq

/-- Python truthiness (`bool(v)`): `None`, `False`, `0`, `""`, `[]` and
the empty dict are falsy, everything else is truthy. -/
def pyTruthy : Val → Bool
  | .null => false
  | .bool b => b
  | .int n => !(n == 0)
  | .str s => !(s == "")
  | .list xs => !xs.isEmpty
  | .dict fs => !fs.isEmpty

def splitAux : List Char → List Char → List String
  | [], acc => [String.mk acc.reverse]
  | c :: rest, acc =>
      if c = '.' then String.mk acc.reverse :: splitAux rest []
      else splitAux rest (c :: acc)

/-- Python `path.split('.')`: splits at every dot; `"".split('.') == [""]`,
`"a.".split('.') == ["a", ""]`.  The result is never the empty list. -/
def pySplitDot (s : String) : List String := splitAux s.data []

/-- Lookup in a Python dict embedded as an association list
(`part in value` / `value[part]`). -/
def lookupField : List (String × Val) → String → Option Val
  | [], _ => none
  | (k, v) :: rest, key => if k = key then some v else lookupField rest key

/-- Python dict item assignment `d[key] = v`: overwrites an existing key in
place, otherwise appends the new key (insertion order). -/
def setField : List (String × Val) → String → Val → List (String × Val)
  | [], key, v => [(key, v)]
  | (k, w) :: rest, key, v =>
      if k = key then (k, v) :: rest else (k, w) :: setField rest key v

/-- Python `dict.get(key, default)`. -/
def dictGet (d : List (String × Val)) (key : String) (default : Val) : Val :=
  (lookupField d key).getD default

/-- The traversal loop of `SimpleStore._get_value_by_path` over the already
split path segments:

    for part in parts:
        if isinstance(value, dict) and part in value:
            value = value[part]
        else:
            return None

Missing segments and non-dict intermediates return `None` (embedded `.null`),
never raise. -/
def getParts : Val → List String → Val
  | v, [] => v
  | .dict fs, p :: ps =>
      match lookupField fs p with
      | some v => getParts v ps
      | none => Val.null
  | _, _ :: _ => Val.null

/-- `SimpleStore._get_value_by_path(obj, path)`: split at dots, then walk. -/
def getValueByPath (obj : Val) (path : String) : Val :=
  getParts obj (pySplitDot path)

/-- The write loop of `SimpleStore._set_value_by_path` over the split path:

    current = obj
    for part in parts[:-1]:
        if part not in current:
            current[part] = {}
        current = current[part]
    current[parts[-1]] = value

A missing intermediate segment is created as an empty dict.  When the object
traversed is not a dict, the `in` test / item assignment raises `TypeError`
(for `str` and `list` values the raise happens one step later, at the item
access or assignment with a string key, but a `TypeError` is raised in every
non-dict case before any mutation occurs).  On the empty segment list,
`parts[-1]` raises `IndexError`.  Since an existing non-dict value is hit, if
ever, before the first missing segment is created, a raise always happens
before any mutation, so the `Except` embedding (error = tree unchanged) is
exact. -/
def setParts : Val → List String → Val → Except String Val
  | _, [], _ => .error "IndexError"
  | .dict fs, [p], v => .ok (.dict (setField fs p v))
  | .dict fs, p :: q :: ps, v =>
      let child := (lookupField fs p).getD (.dict [])
      match setParts child (q :: ps) v with
      | .ok c' => .ok (.dict (setField fs p c'))
      | .error e => .error e
  | _, _ :: _, _ => .error "TypeError"

/-- `SimpleStore._set_value_by_path(obj, path, value)`. -/
def setValueByPath (obj : Val) (path : String) (v : Val) : Except String Val :=
  setParts obj (pySplitDot path) v

/-- `StateAction` from `newui/stores.py`.  The `timestamp` field (a float
defaulting to `time.time()`) is never read by any verified code path and is
omitted from the embedding. -/
structure StateAction where
  type : String
  payload : List (String × Val) := []
  component_id : Option String := none
  deriving DecidableEq

/-- Python `+` as used by the INCREMENT reducer (`current_value + amount`).
Python `bool` is a subclass of `int`, so `True + 1 == 2`; adding an `int` to
a (truthy) `str`, `list`, `dict` or `None` raises `TypeError`. -/
def pyAdd : Val → Val → Except String Val
  | .int a, .int b => .ok (.int (a + b))
  | .int a, .bool b => .ok (.int (a + (if b then 1 else 0)))
  | .bool a, .int b => .ok (.int ((if a then 1 else 0) + b))
  | .bool a, .bool b => .ok (.int ((if a then 1 else 0) + (if b then 1 else 0)))
  | .str a, .str b => .ok (.str (a ++ b))
  | .list a, .list b => .ok (.list (a ++ b))
  | _, _ => .error "TypeError: unsupported operand type(s) for +"

/-- Python `value or 0` as used by the INCREMENT reducer: keeps a truthy
value unchanged and replaces any falsy value by the int `0`. -/
def pyOrZero (v : Val) : Val := if pyTruthy v then v else Val.int 0

mutual

/-- Python `==` on JSON-like values, as used by
`selected_state != self.last_selected_state` in `StateSubscriber.notify`
and by `value in list_value` / `list_value.remove(value)` in the
REMOVE_FROM_LIST reducer.  Unlike structural equality on `Val`, Python
identifies `bool` with `int` (`True == 1`, `False == 0` — bool is an int
subclass), compares lists elementwise and dicts order-insensitively (equal
size, and every key of the left dict present in the right with `==`-equal
value); values of different non-numeric types are unequal, and `None`
equals only `None`. -/
def pyEq : Val → Val → Bool
  | .null, .null => true
  | .bool a, .bool b => a == b
  | .bool a, .int b => (if a then (1 : Int) else 0) == b
  | .int a, .bool b => a == (if b then (1 : Int) else 0)
  | .int a, .int b => a == b
  | .str a, .str b => a == b
  | .list xs, .list ys => pyEqList xs ys
  | .dict xs, .dict ys => xs.length == ys.length && pyEqFields xs ys
  | _, _ => false

def pyEqList : List Val → List Val → Bool
  | [], [] => true
  | x :: xs, y :: ys => pyEq x y && pyEqList xs ys
  | _, _ => false

def pyEqFields : List (String × Val) → List (String × Val) → Bool
  | [], _ => true
  | (k, v) :: rest, ys =>
      (match lookupField ys k with
       | some w => pyEq v w
       | none => false) && pyEqFields rest ys

end

/-- The `index is not None and 0 <= index < len(list_value)` test of the
REMOVE_FROM_LIST reducer.  `None` makes the conjunction false; comparing `0`
with a non-number raises `TypeError`; Python `bool` compares as `0`/`1`. -/
def removeIndexTest (index : Val) (len : Nat) : Except String Bool :=
  match index with
  | .null => .ok false
  | .int i => .ok (decide (0 ≤ i) && decide (i < (len : Int)))
  | .bool b => .ok (decide ((if b then (1 : Int) else 0) < (len : Int)))
  | _ => .error "TypeError: '<=' not supported"

/-- The payload-path prologue shared by the SET_VALUE, APPEND_TO_LIST,
REMOVE_FROM_LIST, TOGGLE_BOOLEAN and INCREMENT branches of
`SimpleStore.reduce`:

    path = payload.get('path', '')
    ...
    if path:
        ...use the path...
    # a falsy path falls through every elif to `return state`

A truthy non-string path would hit `path.split('.')` inside
`_get_value_by_path` and raise `AttributeError`. -/
def withPath (payload : List (String × Val)) (state : Val)
    (k : String → Except String Val) : Except String Val :=
  let path := dictGet payload "path" (.str "")
  if pyTruthy path then
    match path with
    | .str s => k s
    | _ => .error "AttributeError: split"
  else .ok state

/-- `SimpleStore.reduce(state, action)` from `newui/stores.py`, branch by
branch in source order.  The in-place mutations of `deepcopy`-fresh trees
(`list_value.append(item)`, `list_value.pop(index)`, `list_value.remove(value)`)
are embedded as functional updates at the same path: when
`_get_value_by_path` has returned a `list`, every traversed segment was a
dict containing the segment key, so `_set_value_by_path` follows exactly the
same chain of dict entries and replacing the list at that path is the same
tree as mutating the fetched list in place. -/
def SimpleStore.reduce (state : Val) (action : StateAction) : Except String Val :=
  let payload := action.payload
  if action.type = "SET_STATE" then
    -- return {**state, **payload}
    match state with
    | .dict fs => .ok (.dict (payload.foldl (fun acc kv => setField acc kv.1 kv.2) fs))
    | _ => .error "TypeError"
  else if action.type = "SET_VALUE" then
    withPath payload state fun s =>
      setValueByPath state s (dictGet payload "value" Val.null)
  else if action.type = "APPEND_TO_LIST" then
    withPath payload state fun s =>
      let item := dictGet payload "item" Val.null
      match getValueByPath state s with
      | .list xs => setValueByPath state s (.list (xs ++ [item]))
      | _ => setValueByPath state s (.list [item])
  else if action.type = "REMOVE_FROM_LIST" then
    withPath payload state fun s =>
      let index := dictGet payload "index" Val.null
      let value := dictGet payload "value" Val.null
      match getValueByPath state s with
      | .list xs =>
          match removeIndexTest index xs.length with
          | .error e => .error e
          | .ok true =>
              let i : Nat := match index with
                | .int i => i.toNat
                | .bool b => if b then 1 else 0
                | _ => 0
              setValueByPath state s (.list (xs.eraseIdx i))
          | .ok false =>
              -- `value is not None and value in list_value`: the identity
              -- test against None is a null check; membership and
              -- `.remove` compare with Python `==` and drop the first
              -- `==`-equal element
              if !(value == Val.null) && xs.any (fun x => pyEq x value) then
                setValueByPath state s (.list (xs.eraseP (fun x => pyEq x value)))
              else .ok state
      | _ => .ok state
  else if action.type = "TOGGLE_BOOLEAN" then
    withPath payload state fun s =>
      let current := getValueByPath state s
      setValueByPath state s (.bool (!pyTruthy current))
  else if action.type = "INCREMENT" then
    withPath payload state fun s =>
      let amount := dictGet payload "amount" (.int 1)
      let current := pyOrZero (getValueByPath state s)
      match pyAdd current amount with
      | .ok sum => setValueByPath state s sum
      | .error e => .error e
  else if action.type = "RESET" then
    .ok (dictGet payload "state" (.dict []))
  else
    -- unrecognized action type: fall through to `return state`
    .ok state

/-- The action types recognized by `SimpleStore.reduce`. -/
def knownActionTypes : List String :=
  ["SET_STATE", "SET_VALUE", "APPEND_TO_LIST", "REMOVE_FROM_LIST",
   "TOGGLE_BOOLEAN", "INCREMENT", "RESET"]

/-- Python `l[-k:]` for `k = max_history`, as in
`self._history = self._history[-self._max_history:]`.  Note `-0 == 0`, so for
`k = 0` this is `l[0:]`, the whole list, not the empty list. -/
def pySliceLast (k : Nat) (l : List StateAction) : List StateAction :=
  if k = 0 then l else l.drop (l.length - k)

/-- The history maintenance of `Store.dispatch`:

    self._history.append(action)
    if len(self._history) > self._max_history:
        self._history = self._history[-self._max_history:]
-/
def historyAppend (maxHistory : Nat) (history : List StateAction)
    (a : StateAction) : List StateAction :=
  if (history ++ [a]).length > maxHistory then pySliceLast maxHistory (history ++ [a])
  else history ++ [a]

/-- `StateSubscriber` from `newui/stores.py`.  The callback is embedded as a
function that may raise (`Except`); its Python return value is discarded by
the store, so the success type is `Unit`.  `last_selected_state` starts as
`None` (`.null`). -/
structure StateSubscriber where
  callback : Val → StateAction → Except String Unit
  selector : Option (Val → Val) := none
  lastSelected : Val := Val.null

/-- Result of one `StateSubscriber.notify` call: the subscriber with its
updated `last_selected_state`, the arguments the callback was invoked with
(`none` when the selected slice was unchanged and the callback was skipped),
and the console output produced by the `except` handler. -/
structure NotifyResult where
  sub : StateSubscriber
  called : Option (Val × StateAction)
  log : List String

/-- The diagnostic printed by `StateSubscriber.notify`'s `except` handler. -/
def subscriberErrMsg (e : String) : String := "Error in state subscriber: " ++ e

/-- `StateSubscriber.notify(state, action)`:

    try:
        if self.selector:
            selected_state = self.selector(state)
            if selected_state != self.last_selected_state:
                self.last_selected_state = copy.deepcopy(selected_state)
                self.callback(selected_state, action)
        else:
            self.callback(state, action)
    except Exception as e:
        print(f"Error in state subscriber: {e}")

Python `!=` is the negation of Python `==`, embedded as `pyEq` (value
equality identifying `bool` with `int` and comparing dicts
order-insensitively).  `last_selected_state` is updated before the callback
runs, so it is updated even when the callback raises; any exception is
caught and printed, never propagated. -/
def StateSubscriber.notify (sub : StateSubscriber) (state : Val)
    (action : StateAction) : NotifyResult :=
  match sub.selector with
  | some f =>
      let selected := f state
      if pyEq selected sub.lastSelected then ⟨sub, none, []⟩
      else
        let sub' := { sub with lastSelected := selected }
        match sub.callback selected action with
        | .ok _ => ⟨sub', some (selected, action), []⟩
        | .error e => ⟨sub', some (selected, action), [subscriberErrMsg e]⟩
  | none =>
      match sub.callback state action with
      | .ok _ => ⟨sub, some (state, action), []⟩
      | .error e => ⟨sub, some (state, action), [subscriberErrMsg e]⟩

/-- `Store._notify_subscribers(action)`: notify every subscriber, in list
order, with the committed state.  Returns the updated subscribers, the
callback invocations (position `i` describes subscriber `i`), and the
concatenated console output. -/
def notifyAll : List StateSubscriber → Val → StateAction →
    List StateSubscriber × List (Option (Val × StateAction)) × List String
  | [], _, _ => ([], [], [])
  | sub :: rest, state, action =>
      let r := StateSubscriber.notify sub state action
      let (subs, calls, logs) := notifyAll rest state action
      (r.sub :: subs, r.called :: calls, r.log ++ logs)

/-- The mutable fields of a `Store` (from `newui/stores.py`).  The
`_middleware` list is empty for every store the verified code paths build
(nothing in `SimpleStore` registers middleware), so the middleware loop in
`dispatch` is a no-op and is not represented. -/
structure Store where
  state : Val
  subscribers : List StateSubscriber := []
  history : List StateAction := []
  maxHistory : Nat := 100

/-- Everything observable about one `Store.dispatch` call: the store after
the call, the deep copy of the new state returned to the caller, the
callback invocations of the notification pass, and the console output. -/
structure DispatchResult where
  store : Store
  returned : Val
  called : List (Option (Val × StateAction))
  log : List String

/-- `Store.dispatch(action)` (with `SimpleStore.reduce` as the reducer):
inside the lock, reduce a deep copy of the state, commit, append to the
bounded history, notify the subscribers, and return a deep copy of the new
state.  An exception in the reducer propagates to the caller before any
commit or history append. -/
def Store.dispatch (st : Store) (action : StateAction) :
    Except String DispatchResult :=
  match SimpleStore.reduce st.state action with
  | .error e => .error e
  | .ok newState =>
      let n := notifyAll st.subscribers newState action
      .ok { store := { state := newState, subscribers := n.1,
                       history := historyAppend st.maxHistory st.history action,
                       maxHistory := st.maxHistory },
            returned := newState, called := n.2.1, log := n.2.2 }

/-- Dispatch a list of actions in order, stopping at the first exception. -/
def Store.dispatchList (st : Store) : List StateAction → Except String Store
  | [] => .ok st
  | a :: rest =>
      match st.dispatch a with
      | .error e => .error e
      | .ok r => r.store.dispatchList rest

/-- The action `Store.subscribe` notifies a fresh subscriber with:
`StateAction("@@INIT")`. -/
def initAction : StateAction := { type := "@@INIT" }

/-- Result of `Store.subscribe`: the store with the appended subscriber and
the observable effects of the immediate initial notification. -/
structure SubscribeResult where
  store : Store
  called : Option (Val × StateAction)
  log : List String

/-- `Store.subscribe(callback, selector)`:

    subscriber = StateSubscriber(callback, selector)
    self._subscribers.append(subscriber)
    # Immediately notify with current state
    subscriber.notify(self._state, StateAction("@@INIT"))

The appended list entry is the same object `notify` updates, so the stored
subscriber carries the `last_selected_state` left by the initial
notification.  (The returned unsubscribe closure is not modelled.) -/
def Store.subscribe (st : Store) (callback : Val → StateAction → Except String Unit)
    (selector : Option (Val → Val)) : SubscribeResult :=
  let subscriber : StateSubscriber := { callback := callback, selector := selector }
  let r := StateSubscriber.notify subscriber st.state initAction
  { store := { st with subscribers := st.subscribers ++ [r.sub] },
    called := r.called, log := r.log }

/-- The observable events of one `Store.dispatch` call, in program order, as
far as the mutual-exclusion lock is concerned.  In the source the entire
body of `dispatch` — reduce, commit, history append, `_notify_subscribers`
and the computation of the return value — is the body of the
`with self._lock:` statement, so the lock is released only after the last
subscriber notification. -/
inductive DispatchEvent : Type where
  | acquireLock : DispatchEvent
  | runReduce : DispatchEvent
  | commitState : DispatchEvent
  | appendHistory : DispatchEvent
  | notifySubscriber : Nat → DispatchEvent
  | releaseLock : DispatchEvent
  deriving DecidableEq

/-- The event trace of a `Store.dispatch` call on a store with
`numSubscribers` subscribers, read off the source order of
`Store.dispatch` / `Store._notify_subscribers`. -/
def dispatchEventTrace (numSubscribers : Nat) : List DispatchEvent :=
  [DispatchEvent.acquireLock, DispatchEvent.runReduce,
   DispatchEvent.commitState, DispatchEvent.appendHistory]
    ++ (List.range numSubscribers).map DispatchEvent.notifySubscriber
    ++ [DispatchEvent.releaseLock]

/-- The property claimed by the specification, as a predicate on event
traces: the lock is released before any subscriber callback is invoked,
i.e. no notification event occurs before the release event. -/
def lockReleasedBeforeNotify (trace : List DispatchEvent) : Bool :=
  (trace.takeWhile (fun e => !(e == DispatchEvent.releaseLock))).all
    (fun e => match e with
      | DispatchEvent.notifySubscriber _ => false
      | _ => true)

/-- Lowercase hex digit, as produced by Python `'%02x'` / `json` escapes. -/
def hexDigit (n : Nat) : Char :=
  if n < 10 then Char.ofNat (48 + n) else Char.ofNat (87 + n)

/-- UTF-8 encoding of one character (`str.encode()`), as byte values. -/
def utf8Bytes (c : Char) : List Nat :=
  let n := c.toNat
  if n < 0x80 then [n]
  else if n < 0x800 then [0xc0 + n / 64, 0x80 + n % 64]
  else if n < 0x10000 then
    [0xe0 + n / 4096, 0x80 + n / 64 % 64, 0x80 + n % 64]
  else
    [0xf0 + n / 262144, 0x80 + n / 4096 % 64, 0x80 + n / 64 % 64, 0x80 + n % 64]

/-- `data.encode()`: UTF-8 bytes of a string. -/
def strBytes (s : String) : List Nat := s.data.flatMap utf8Bytes

/-- JSON escape of one character, following `json.dumps` with the default
`ensure_ascii=True`: `"` and `\` get a backslash, the short escapes
`\n`, `\r`, `\t`, `\b`, `\f` are used, and every other character outside
`0x20..0x7e` becomes `\uXXXX` (astral characters become a surrogate pair). -/
def jsonEscapeChar (c : Char) : List Char :=
  let n := c.toNat
  let uEsc : Nat → List Char := fun m =>
    ['\\', 'u', hexDigit (m / 4096 % 16), hexDigit (m / 256 % 16),
     hexDigit (m / 16 % 16), hexDigit (m % 16)]
  if c = '"' then ['\\', '"']
  else if c = '\\' then ['\\', '\\']
  else if c = '\n' then ['\\', 'n']
  else if c = '\r' then ['\\', 'r']
  else if c = '\t' then ['\\', 't']
  else if n = 8 then ['\\', 'b']
  else if n = 12 then ['\\', 'f']
  else if n < 0x20 ∨ n > 0x7e then
    if n < 0x10000 then uEsc n
    else uEsc (0xd800 + (n - 0x10000) / 1024) ++ uEsc (0xdc00 + (n - 0x10000) % 1024)
  else [c]

def jsonEscape (s : String) : String := String.mk (s.data.flatMap jsonEscapeChar)

/-- Code-point lexicographic `<=` on strings (how Python compares `str`
when sorting dict keys). -/
def charListLE : List Char → List Char → Bool
  | [], _ => true
  | _ :: _, [] => false
  | a :: as, b :: bs =>
      if a = b then charListLE as bs else decide (a.toNat < b.toNat)

def keyLE (a b : String) : Bool := charListLE a.data b.data

/-- Insertion sort of dict fields by key, giving the ascending key order
`json.dumps(..., sort_keys=True)` serializes dicts in. -/
def insertByKey (kv : String × Val) : List (String × Val) → List (String × Val)
  | [] => [kv]
  | hd :: tl =>
      if keyLE kv.1 hd.1 then kv :: hd :: tl else hd :: insertByKey kv tl

def sortByKey : List (String × Val) → List (String × Val)
  | [] => []
  | kv :: rest => insertByKey kv (sortByKey rest)

mutual

/-- Recursively sort every dict's fields by key; applying this before the
plain serializer below gives the key order `json.dumps(..., sort_keys=True)`
serializes dicts in. -/
def sortVal : Val → Val
  | .null => .null
  | .bool b => .bool b
  | .int n => .int n
  | .str s => .str s
  | .list xs => .list (sortValList xs)
  | .dict fs => .dict (sortByKey (sortValFields fs))

def sortValList : List Val → List Val
  | [] => []
  | x :: rest => sortVal x :: sortValList rest

def sortValFields : List (String × Val) → List (String × Val)
  | [] => []
  | (k, v) :: rest => (k, sortVal v) :: sortValFields rest

end

mutual

/-- JSON serialization with the `json.dumps` default separators
`(', ', ': ')`; combined with `sortVal` this is
`json.dumps(v, sort_keys=True)`. -/
def jsonDumps : Val → String
  | .null => "null"
  | .bool true => "true"
  | .bool false => "false"
  | .int n => toString n
  | .str s => "\"" ++ jsonEscape s ++ "\""
  | .list xs => "[" ++ jsonDumpsList xs ++ "]"
  | .dict fs => "\x7b" ++ jsonDumpsFields fs ++ "\x7d"

def jsonDumpsList : List Val → String
  | [] => ""
  | [x] => jsonDumps x
  | x :: y :: rest => jsonDumps x ++ ", " ++ jsonDumpsList (y :: rest)

def jsonDumpsFields : List (String × Val) → String
  | [] => ""
  | [(k, v)] => "\"" ++ jsonEscape k ++ "\": " ++ jsonDumps v
  | (k, v) :: kv :: rest =>
      "\"" ++ jsonEscape k ++ "\": " ++ jsonDumps v ++ ", "
        ++ jsonDumpsFields (kv :: rest)

end

/-- The 64 MD5 sine-derived constants `K[i] = floor(2^32 * abs(sin(i + 1)))`
(RFC 1321). -/
def md5K : List Nat :=
  [0xd76aa478, 0xe8c7b756, 0x242070db, 0xc1bdceee,
   0xf57c0faf, 0x4787c62a, 0xa8304613, 0xfd469501,
   0x698098d8, 0x8b44f7af, 0xffff5bb1, 0x895cd7be,
   0x6b901122, 0xfd987193, 0xa679438e, 0x49b40821,
   0xf61e2562, 0xc040b340, 0x265e5a51, 0xe9b6c7aa,
   0xd62f105d, 0x02441453, 0xd8a1e681, 0xe7d3fbc8,
   0x21e1cde6, 0xc33707d6, 0xf4d50d87, 0x455a14ed,
   0xa9e3e905, 0xfcefa3f8, 0x676f02d9, 0x8d2a4c8a,
   0xfffa3942, 0x8771f681, 0x6d9d6122, 0xfde5380c,
   0xa4beea44, 0x4bdecfa9, 0xf6bb4b60, 0xbebfbc70,
   0x289b7ec6, 0xeaa127fa, 0xd4ef3085, 0x04881d05,
   0xd9d4d039, 0xe6db99e5, 0x1fa27cf8, 0xc4ac5665,
   0xf4292244, 0x432aff97, 0xab9423a7, 0xfc93a039,
   0x655b59c3, 0x8f0ccc92, 0xffeff47d, 0x85845dd1,
   0x6fa87e4f, 0xfe2ce6e0, 0xa3014314, 0x4e0811a1,
   0xf7537e82, 0xbd3af235, 0x2ad7d2bb, 0xeb86d391]

/-- The 64 MD5 per-round left-rotation amounts (RFC 1321). -/
def md5S : List Nat :=
  [7, 12, 17, 22, 7, 12, 17, 22, 7, 12, 17, 22, 7, 12, 17, 22,
   5, 9, 14, 20, 5, 9, 14, 20, 5, 9, 14, 20, 5, 9, 14, 20,
   4, 11, 16, 23, 4, 11, 16, 23, 4, 11, 16, 23, 4, 11, 16, 23,
   6, 10, 15, 21, 6, 10, 15, 21, 6, 10, 15, 21, 6, 10, 15, 21]

/-- 32-bit left rotation on `Nat` (operands below `2^32`). -/
def rotl32 (x s : Nat) : Nat := (x * 2 ^ s + x / 2 ^ (32 - s)) % 2 ^ 32

/-- Bitwise complement below `2^32`. -/
def not32 (x : Nat) : Nat := 2 ^ 32 - 1 - x

/-- The MD5 round function and message-word index for step `i`. -/
def md5FG (b c d i : Nat) : Nat × Nat :=
  if i < 16 then ((b &&& c) ||| (not32 b &&& d), i)
  else if i < 32 then ((d &&& b) ||| (not32 d &&& c), (5 * i + 1) % 16)
  else if i < 48 then (b ^^^ c ^^^ d, (3 * i + 5) % 16)
  else (c ^^^ (b ||| not32 d), (7 * i) % 16)

/-- Little-endian byte decomposition of `n` into `count` bytes. -/
def toLEBytes (n : Nat) : Nat → List Nat
  | 0 => []
  | count + 1 => (n % 256) :: toLEBytes (n / 256) count

/-- Group 4 consecutive bytes into little-endian 32-bit words. -/
def leWords : List Nat → List Nat
  | b0 :: b1 :: b2 :: b3 :: rest =>
      (b0 + 256 * (b1 + 256 * (b2 + 256 * b3))) :: leWords rest
  | _ => []

/-- MD5 padding: a `0x80` byte, zeros up to 56 mod 64, then the message bit
length as 8 little-endian bytes (mod `2^64`). -/
def md5Pad (msg : List Nat) : List Nat :=
  msg ++ [0x80]
    ++ List.replicate ((56 + 64 - (msg.length + 1) % 64) % 64) 0
    ++ toLEBytes (msg.length * 8) 8

/-- One MD5 step of the 64-step compression loop. -/
def md5Step (M : List Nat) (st : Nat × Nat × Nat × Nat) (i : Nat) :
    Nat × Nat × Nat × Nat :=
  let (a, b, c, d) := st
  let (f, g) := md5FG b c d i
  let f' := (f + a + md5K.getD i 0 + M.getD g 0) % 2 ^ 32
  (d, (b + rotl32 f' (md5S.getD i 0)) % 2 ^ 32, b, c)

/-- Process one 64-byte chunk (16 words) into the running state. -/
def md5Chunk (st : Nat × Nat × Nat × Nat) (chunk : List Nat) :
    Nat × Nat × Nat × Nat :=
  let M := leWords chunk
  let (a, b, c, d) := (List.range 64).foldl (md5Step M) st
  ((st.1 + a) % 2 ^ 32, (st.2.1 + b) % 2 ^ 32,
   (st.2.2.1 + c) % 2 ^ 32, (st.2.2.2 + d) % 2 ^ 32)

/-- Split a byte list into 64-byte chunks.  The auxiliary recursion runs on
a fuel parameter initialized to the list length (an upper bound on the
number of chunks, since every step consumes at least one element of a
non-empty list); the fuel-exhausted case is unreachable. -/
def chunksAux : Nat → List Nat → List (List Nat)
  | _, [] => []
  | 0, _ => []
  | fuel + 1, l => l.take 64 :: chunksAux fuel (l.drop 64)

def chunks64 (l : List Nat) : List (List Nat) := chunksAux l.length l

/-- `hashlib.md5(bytes).digest()`: the 16-byte MD5 digest. -/
def md5Bytes (msg : List Nat) : List Nat :=
  let st := (chunks64 (md5Pad msg)).foldl md5Chunk
    (0x67452301, 0xefcdab89, 0x98badcfe, 0x10325476)
  toLEBytes st.1 4 ++ toLEBytes st.2.1 4 ++ toLEBytes st.2.2.1 4 ++ toLEBytes st.2.2.2 4

/-- `.hexdigest()`: two lowercase hex characters per digest byte. -/
def hexChars : List Nat → List Char
  | [] => []
  | b :: rest => hexDigit (b / 16 % 16) :: hexDigit (b % 16) :: hexChars rest

/-- `StateManager.generate_component_id(component_name, props)` from
`newui/core/state.py`:

    data = f"{component_name}:{json.dumps(props, sort_keys=True)}"
    return hashlib.md5(data.encode()).hexdigest()[:8]
-/
def generate_component_id (component_name : String)
    (props : List (String × Val)) : String :=
  let data := component_name ++ ":" ++ jsonDumps (sortVal (Val.dict props))
  String.mk ((hexChars (md5Bytes (strBytes data))).take 8)

/-- `set_value_action(path, value)` from `newui/stores.py`: builds a
SET_VALUE action with payload `{"path": path, "value": value}`. -/
def set_value_action (path : String) (value : Val)
    (component_id : Option String := none) : StateAction :=
  { type := "SET_VALUE",
    payload := [("path", Val.str path), ("value", value)],
    component_id := component_id }

/-- `increment_action(path, amount=1)` from `newui/stores.py`: builds an
INCREMENT action with payload `{"path": path, "amount": amount}`. -/
def increment_action (path : String) (amount : Int := 1)
    (component_id : Option String := none) : StateAction :=
  { type := "INCREMENT",
    payload := [("path", Val.str path), ("amount", Val.int amount)],
    component_id := component_id }

/-- A concrete action whose type no reducer branch recognizes. -/
def unknownAct : StateAction := { type := "NOT_A_REAL_ACTION" }

/-- A subscriber callback that returns normally. -/
def okCallback : Val → StateAction → Except String Unit := fun _ _ => .ok ()

/-- A subscriber callback that raises. -/
def failingCallback : Val → StateAction → Except String Unit :=
  fun _ _ => .error "boom"

/-- The selector `state => state.cart.total` of the specification's
filtering example. -/
def cartTotalSelector : Val → Val := fun state => getValueByPath state "cart.total"

/-- A concrete state with a user name and a cart total. -/
def demoState : Val :=
  Val.dict [("user", Val.dict [("name", Val.str "alice")]),
            ("cart", Val.dict [("total", Val.int 5)])]

/-- A store over `demoState` with one selector subscriber whose last
selected value is the current cart total. -/
def demoStore : Store :=
  { state := demoState,
    subscribers := [{ callback := okCallback, selector := some cartTotalSelector,
                      lastSelected := Val.int 5 }] }

/-- A store with three selector-less subscribers, the middle one raising. -/
def threeSubStore : Store :=
  { state := Val.dict [],
    subscribers := [{ callback := okCallback }, { callback := failingCallback },
                    { callback := okCallback }] }

/-- A store whose selector subscriber last saw `True` at `cart.total` while
the state now holds the int `1` there: Python `1 != True` is `False`, so a
dispatch must not notify it. -/
def boolIntStore : Store :=
  { state := Val.dict [("cart", Val.dict [("total", Val.int 1)])],
    subscribers := [{ callback := okCallback, selector := some cartTotalSelector,
                      lastSelected := Val.bool true }] }

/-! ## Path resolver: round-trip and non-map parents (C1, C6) -/

theorem lookupField_setField_self (fs : List (String × Val)) (k : String) (v : Val) :
    lookupField (setField fs k v) k = some v := by
  induction fs with
  | nil => simp [setField, lookupField]
  | cons hd tl ih =>
      obtain ⟨k', w⟩ := hd
      by_cases hk : k' = k
      · simp [setField, lookupField, hk]
      · simp [setField, lookupField, hk, ih]

theorem setParts_roundtrip (ps : List String) :
    ∀ (t v t' : Val), setParts t ps v = Except.ok t' → getParts t' ps = v := by
  induction ps with
  | nil =>
      intro t v t' h
      cases t <;> simp [setParts] at h
  | cons p ps ih =>
      intro t v t' h
      cases ps with
      | nil =>
          cases t <;> simp [setParts] at h
          subst h
          simp [getParts, lookupField_setField_self]
      | cons q ps' =>
          cases t <;> simp [setParts] at h
          rename_i fs
          cases hc : setParts ((lookupField fs p).getD (Val.dict [])) (q :: ps') v with
          | error e => rw [hc] at h; simp at h
          | ok c' =>
              rw [hc] at h
              simp at h
              subst h
              simp [getParts, lookupField_setField_self]
              exact ih _ v c' hc

/-- Claim C1 — Path round-trip: for every state tree, dotted path and value,
if `SimpleStore._set_value_by_path` completes (the path is valid for the
tree, i.e. no existing non-map intermediate is traversed), then
`SimpleStore._get_value_by_path` on the written path returns exactly the
written value. -/
theorem path_roundtrip (tree : Val) (path : String) (v newTree : Val)
    (h : setValueByPath tree path v = Except.ok newTree) :
    getValueByPath newTree path = v :=
  setParts_roundtrip (pySplitDot path) tree v newTree h

theorem path_roundtrip_witness :
    setValueByPath (Val.dict []) "user.name" (Val.str "Ada")
      = Except.ok (Val.dict [("user", Val.dict [("name", Val.str "Ada")])]) ∧
    getValueByPath (Val.dict [("user", Val.dict [("name", Val.str "Ada")])])
      "user.name" = Val.str "Ada" :=
  ⟨rfl, path_roundtrip (Val.dict []) "user.name" (Val.str "Ada") _ rfl⟩

theorem setParts_not_dict (c : Val) (hc : ∀ gs, c ≠ Val.dict gs)
    (parts : List String) (hp : parts ≠ []) (v : Val) :
    setParts c parts v = Except.error "TypeError" := by
  cases c with
  | dict gs => exact absurd rfl (hc gs)
  | null => cases parts with
      | nil => exact absurd rfl hp
      | cons p ps => cases ps <;> rfl
  | bool b => cases parts with
      | nil => exact absurd rfl hp
      | cons p ps => cases ps <;> rfl
  | int n => cases parts with
      | nil => exact absurd rfl hp
      | cons p ps => cases ps <;> rfl
  | str s => cases parts with
      | nil => exact absurd rfl hp
      | cons p ps => cases ps <;> rfl
  | list xs => cases parts with
      | nil => exact absurd rfl hp
      | cons p ps => cases ps <;> rfl

/-- Claim C6 (counterexample) — writing through an existing non-map parent
does not complete the write: on the tree `{"a": 5}`, writing value `7` at
path `"a.b"` raises `TypeError` instead of replacing `5` with a map. -/
theorem set_nonmap_parent_cex :
    setValueByPath (Val.dict [("a", Val.int 5)]) "a.b" (Val.int 7)
      = Except.error "TypeError" := rfl

/-- Claim C6 (amended) — when the first path segment exists in the tree and
holds a non-map value and more segments follow, `_set_value_by_path` raises
`TypeError` (the write never completes); an intermediate map is created only
when the segment is missing, in which case the write proceeds into a fresh
empty dict. -/
theorem set_nonmap_parent_amended (fs : List (String × Val)) (p : String)
    (rest : List String) (v : Val) (hrest : rest ≠ []) :
    (∀ c, lookupField fs p = some c → (∀ gs, c ≠ Val.dict gs) →
        setParts (Val.dict fs) (p :: rest) v = Except.error "TypeError") ∧
    (lookupField fs p = none →
        setParts (Val.dict fs) (p :: rest) v =
          Except.map (fun c' => Val.dict (setField fs p c'))
            (setParts (Val.dict []) rest v)) := by
  obtain ⟨q, ps'⟩ := List.exists_cons_of_ne_nil hrest
  obtain ⟨ps, rfl⟩ := ps'
  constructor
  · intro c hlook hc
    simp [setParts, hlook, setParts_not_dict c hc (q :: ps) (by simp) v]
  · intro hlook
    simp only [setParts, hlook, Option.getD_none]
    cases setParts (Val.dict []) (q :: ps) v <;> rfl

theorem set_nonmap_parent_amended_witness :
    (["b"] ≠ ([] : List String)) ∧
    lookupField [("a", Val.int 5)] "a" = some (Val.int 5) ∧
    pySplitDot "a.b" = ["a", "b"] ∧
    setParts (Val.dict [("a", Val.int 5)]) ["a", "b"] (Val.int 7)
      = Except.error "TypeError" :=
  ⟨by simp, rfl, by decide,
   (set_nonmap_parent_amended [("a", Val.int 5)] "a" ["b"] (Val.int 7)
      (by simp)).1 (Val.int 5) rfl (fun gs hgs => Val.noConfusion hgs)⟩

/-! ## Dispatch, history bound and unknown actions (C2, C3) -/

theorem reduce_unknown (s : Val) (a : StateAction) (h : a.type ∉ knownActionTypes) :
    SimpleStore.reduce s a = Except.ok s := by
  simp only [knownActionTypes, List.mem_cons, List.not_mem_nil, or_false, not_or] at h
  obtain ⟨h1, h2, h3, h4, h5, h6, h7⟩ := h
  simp [SimpleStore.reduce, h1, h2, h3, h4, h5, h6, h7]

theorem dispatch_eq (st : Store) (a : StateAction) (s' : Val)
    (hred : SimpleStore.reduce st.state a = Except.ok s') :
    st.dispatch a = Except.ok
      { store := { state := s', subscribers := (notifyAll st.subscribers s' a).1,
                   history := historyAppend st.maxHistory st.history a,
                   maxHistory := st.maxHistory },
        returned := s', called := (notifyAll st.subscribers s' a).2.1,
        log := (notifyAll st.subscribers s' a).2.2 } := by
  unfold Store.dispatch
  rw [hred]

theorem dispatch_inv (st : Store) (a : StateAction) (r : DispatchResult)
    (hd : st.dispatch a = Except.ok r) :
    SimpleStore.reduce st.state a = Except.ok r.store.state ∧
    r.store.history = historyAppend st.maxHistory st.history a ∧
    r.store.maxHistory = st.maxHistory ∧
    r.store.subscribers = (notifyAll st.subscribers r.store.state a).1 ∧
    r.called = (notifyAll st.subscribers r.store.state a).2.1 ∧
    r.log = (notifyAll st.subscribers r.store.state a).2.2 ∧
    r.returned = r.store.state := by
  unfold Store.dispatch at hd
  cases hred : SimpleStore.reduce st.state a with
  | error e => rw [hred] at hd; simp at hd
  | ok s' =>
      rw [hred] at hd
      simp only [Except.ok.injEq] at hd
      subst hd
      exact ⟨rfl, rfl, rfl, rfl, rfl, rfl, rfl⟩

theorem pySliceLast_of_le (k : Nat) (l : List StateAction) (h : l.length ≤ k) :
    pySliceLast k l = l := by
  unfold pySliceLast
  split
  · rfl
  · rw [Nat.sub_eq_zero_of_le h, List.drop_zero]

theorem pySliceLast_length (k : Nat) (l : List StateAction) (hk : 1 ≤ k) :
    (pySliceLast k l).length = min k l.length := by
  unfold pySliceLast
  rw [if_neg (by omega)]
  rw [List.length_drop]
  omega

theorem historyAppend_eq_slice (k : Nat) (h : List StateAction) (a : StateAction) :
    historyAppend k h a = pySliceLast k (h ++ [a]) := by
  unfold historyAppend
  split
  · rfl
  · rename_i hle
    rw [pySliceLast_of_le k (h ++ [a]) (by omega)]

theorem historyAppend_zero (h : List StateAction) (a : StateAction) :
    historyAppend 0 h a = h ++ [a] := by
  unfold historyAppend pySliceLast
  simp

theorem historyAppend_getLast (k : Nat) (h : List StateAction) (a : StateAction) :
    (historyAppend k h a).getLast? = some a := by
  rcases Nat.eq_zero_or_pos k with hk0 | hk1
  · subst hk0
    rw [historyAppend_zero]
    exact List.getLast?_concat h
  · rw [historyAppend_eq_slice]
    unfold pySliceLast
    rw [if_neg (by omega)]
    rw [List.drop_append_eq_append_drop]
    have hle : (h ++ [a]).length - k ≤ h.length := by
      simp only [List.length_append, List.length_cons, List.length_nil]
      omega
    rw [Nat.sub_eq_zero_of_le hle, List.drop_zero]
    exact List.getLast?_concat _

theorem historyAppend_of_lt (k : Nat) (h : List StateAction) (a : StateAction)
    (hlt : h.length < k) : historyAppend k h a = h ++ [a] := by
  unfold historyAppend
  rw [if_neg (by simp; omega)]

theorem historyAppend_length_le (k : Nat) (h : List StateAction) (a : StateAction)
    (hk : 1 ≤ k) : (historyAppend k h a).length ≤ k := by
  rw [historyAppend_eq_slice]
  rw [pySliceLast_length k _ hk]
  omega

/-- Claim C2 — Unknown action is a no-op that still records history: for any
store and any action whose type no reducer branch recognizes, dispatch
succeeds (nothing is raised), the committed state and the returned state
both equal the old state by value, and the action is appended as the most
recent history entry (the only change to the history besides the bounded
eviction, which does not occur below the `max_history` bound). -/
theorem unknown_action_noop (st : Store) (a : StateAction)
    (h : a.type ∉ knownActionTypes) :
    ∃ r, st.dispatch a = Except.ok r ∧ r.store.state = st.state ∧
      r.returned = st.state ∧
      r.store.history.getLast? = some a ∧
      (st.history.length < st.maxHistory → r.store.history = st.history ++ [a]) := by
  refine ⟨_, dispatch_eq st a st.state (reduce_unknown st.state a h), rfl, rfl, ?_, ?_⟩
  · exact historyAppend_getLast st.maxHistory st.history a
  · intro hlt
    exact historyAppend_of_lt st.maxHistory st.history a hlt

theorem unknown_action_noop_witness :
    (unknownAct.type ∉ knownActionTypes) ∧
    ∃ r, Store.dispatch { state := Val.dict [("x", Val.int 1)] } unknownAct
        = Except.ok r ∧
      r.store.state = Val.dict [("x", Val.int 1)] ∧
      r.returned = Val.dict [("x", Val.int 1)] ∧
      r.store.history.getLast? = some unknownAct ∧
      (([] : List StateAction).length < 100 →
        r.store.history = [] ++ [unknownAct]) :=
  ⟨by decide, unknown_action_noop { state := Val.dict [("x", Val.int 1)] }
      unknownAct (by decide)⟩

theorem pySliceLast_append_slide (k : Nat) (l r : List StateAction) (hk : 1 ≤ k) :
    pySliceLast k (pySliceLast k l ++ r) = pySliceLast k (l ++ r) := by
  unfold pySliceLast
  rw [if_neg (by omega), if_neg (by omega), if_neg (by omega)]
  rcases Nat.le_total l.length k with hle | hgt
  · rw [Nat.sub_eq_zero_of_le hle, List.drop_zero]
  · rw [List.drop_append_eq_append_drop, List.drop_append_eq_append_drop,
        List.drop_drop]
    have h1 : (List.drop (l.length - k) l).length = k := by
      rw [List.length_drop]; omega
    rw [h1]
    congr 2 <;> simp [List.length_append, List.length_drop] <;> omega

theorem dispatchList_history (acts : List StateAction) :
    ∀ (st st' : Store), 1 ≤ st.maxHistory →
      st.history.length ≤ st.maxHistory →
      st.dispatchList acts = Except.ok st' →
      st'.history = pySliceLast st.maxHistory (st.history ++ acts) ∧
      st'.maxHistory = st.maxHistory := by
  induction acts with
  | nil =>
      intro st st' hk hlen h
      simp only [Store.dispatchList, Except.ok.injEq] at h
      subst h
      rw [List.append_nil, pySliceLast_of_le _ _ hlen]
      exact ⟨rfl, rfl⟩
  | cons a acts ih =>
      intro st st' hk hlen h
      simp only [Store.dispatchList] at h
      cases hd : st.dispatch a with
      | error e => rw [hd] at h; simp at h
      | ok r =>
          rw [hd] at h
          obtain ⟨_, hhist, hmax, _, _, _, _⟩ := dispatch_inv st a r hd
          have hk' : 1 ≤ r.store.maxHistory := by rw [hmax]; exact hk
          have hlen' : r.store.history.length ≤ r.store.maxHistory := by
            rw [hhist, hmax]
            exact historyAppend_length_le st.maxHistory st.history a hk
          obtain ⟨ih1, ih2⟩ := ih r.store st' hk' hlen' h
          rw [hmax] at ih2
          refine ⟨?_, ih2⟩
          rw [ih1, hhist, hmax, historyAppend_eq_slice,
              pySliceLast_append_slide _ _ _ hk]
          simp

/-- Claim C3 (counterexample) — the history bound fails for
`max_history = 0`: Python `history[-0:]` is the whole list, so a store with
`max_history = 0` never evicts anything; after five dispatches its history
holds five entries, violating `len(history) <= max_history`. -/
theorem history_bound_cex :
    Store.dispatchList { state := Val.dict [], maxHistory := 0 }
        (List.replicate 5 unknownAct)
      = Except.ok { state := Val.dict [],
                    history := List.replicate 5 unknownAct, maxHistory := 0 } ∧
    ¬ ((List.replicate 5 unknownAct).length ≤ 0) :=
  ⟨rfl, by decide⟩

/-- Claim C3 (amended) — for every positive `max_history`: after any
successful dispatch `len(history) <= max_history` holds, and dispatching
`N + 5` actions into a store configured with `max_history = N ≥ 1` (and an
empty history) leaves exactly the most recent `N` actions, in dispatch
order.  (For `max_history = 0` the bound fails, see the counterexample.) -/
theorem history_bound_amended :
    (∀ (st : Store) (a : StateAction) (r : DispatchResult),
        1 ≤ st.maxHistory → st.dispatch a = Except.ok r →
        r.store.history.length ≤ st.maxHistory) ∧
    (∀ (N : Nat) (s0 : Val) (subs : List StateSubscriber)
        (acts : List StateAction) (st' : Store),
        1 ≤ N → acts.length = N + 5 →
        Store.dispatchList
            { state := s0, subscribers := subs, history := [], maxHistory := N }
            acts = Except.ok st' →
        st'.history = acts.drop 5 ∧ st'.history.length = N) := by
  constructor
  · intro st a r hk hd
    obtain ⟨_, hhist, _, _, _, _, _⟩ := dispatch_inv st a r hd
    rw [hhist]
    exact historyAppend_length_le st.maxHistory st.history a hk
  · intro N s0 subs acts st' hN hlen h
    obtain ⟨h1, _⟩ := dispatchList_history acts _ st' hN (by simp) h
    simp only [List.nil_append] at h1
    have hdrop : pySliceLast N acts = acts.drop 5 := by
      unfold pySliceLast
      rw [if_neg (by omega), hlen]
      congr 1
      omega
    rw [h1, hdrop]
    refine ⟨rfl, ?_⟩
    rw [List.length_drop, hlen]
    omega

theorem history_bound_amended_witness :
    (1 ≤ 1) ∧ (List.replicate 6 unknownAct).length = 1 + 5 ∧
    Store.dispatchList
        { state := Val.dict [], subscribers := [], history := [], maxHistory := 1 }
        (List.replicate 6 unknownAct)
      = Except.ok { state := Val.dict [], history := [unknownAct], maxHistory := 1 } ∧
    ([unknownAct] : List StateAction) = (List.replicate 6 unknownAct).drop 5 ∧
    ([unknownAct] : List StateAction).length = 1 := by
  refine ⟨Nat.le_refl 1, by simp, rfl, ?_, ?_⟩
  · have h := (history_bound_amended.2 1 (Val.dict []) [] (List.replicate 6 unknownAct)
      { state := Val.dict [], history := [unknownAct], maxHistory := 1 }
      (Nat.le_refl 1) (by simp) rfl)
    exact h.1
  · rfl

/-! ## Subscriber notification (C4, C7, C10) -/

theorem notifyAll_subs_length (subs : List StateSubscriber) (s : Val)
    (a : StateAction) : (notifyAll subs s a).1.length = subs.length := by
  induction subs with
  | nil => rfl
  | cons sub rest ih => simp [notifyAll, ih]

theorem notifyAll_called_length (subs : List StateSubscriber) (s : Val)
    (a : StateAction) : (notifyAll subs s a).2.1.length = subs.length := by
  induction subs with
  | nil => rfl
  | cons sub rest ih => simp [notifyAll, ih]

theorem notifyAll_called_get (subs : List StateSubscriber) (s : Val)
    (a : StateAction) :
    ∀ i : Nat, ((notifyAll subs s a).2.1)[i]? =
      (subs[i]?).map (fun sub => (StateSubscriber.notify sub s a).called) := by
  induction subs with
  | nil => intro i; simp [notifyAll]
  | cons sub rest ih =>
      intro i
      cases i with
      | zero => simp [notifyAll]
      | succ j => simp [notifyAll, ih j]

theorem notifyAll_log_mem (subs : List StateSubscriber) (s : Val)
    (a : StateAction) (sub : StateSubscriber) (hmem : sub ∈ subs) :
    ∀ m ∈ (StateSubscriber.notify sub s a).log, m ∈ (notifyAll subs s a).2.2 := by
  induction subs with
  | nil => cases hmem
  | cons hd rest ih =>
      intro m hm
      simp only [notifyAll, List.mem_append]
      cases hmem with
      | head => exact Or.inl hm
      | tail _ htail => exact Or.inr (ih htail m hm)

theorem notify_selector (cb : Val → StateAction → Except String Unit)
    (f : Val → Val) (last : Val) (s : Val) (a : StateAction) :
    (StateSubscriber.notify
        { callback := cb, selector := some f, lastSelected := last } s a).called =
      if pyEq (f s) last then none else some (f s, a) := by
  unfold StateSubscriber.notify
  simp only
  split
  · rfl
  · cases cb (f s) a <;> rfl

/-- Claim C4 — Subscriber selector filtering: for every store, every
subscriber position holding a selector subscriber, and every successful
dispatch, the subscriber's callback is invoked exactly when the selector
applied to the post-dispatch state differs from the subscriber's stored
last selected value under Python value equality (`pyEq` — not identity,
and not structural equality either: `True == 1` and order-permuted dicts
compare equal); when invoked, it receives the selected slice and the
action — the action type plays no role in the decision. -/
theorem selector_filtering (st : Store) (a : StateAction) (r : DispatchResult)
    (i : Nat) (sub : StateSubscriber) (f : Val → Val)
    (hd : st.dispatch a = Except.ok r)
    (hs : st.subscribers[i]? = some sub)
    (hf : sub.selector = some f) :
    r.called[i]? = some (if pyEq (f r.store.state) sub.lastSelected then none
                         else some (f r.store.state, a)) := by
  obtain ⟨_, _, _, _, hcalled, _, _⟩ := dispatch_inv st a r hd
  rw [hcalled, notifyAll_called_get st.subscribers r.store.state a i, hs]
  simp only [Option.map_some']
  obtain ⟨cb, sel, last⟩ := sub
  simp only at hf
  subst hf
  rw [notify_selector cb f last r.store.state a]

theorem selector_filtering_witness :
    ∃ r1, demoStore.dispatch (set_value_action "user.name" (Val.str "bob"))
        = Except.ok r1 ∧ r1.called[0]? = some none ∧
    ∃ r2, demoStore.dispatch (set_value_action "cart.total" (Val.int 6))
        = Except.ok r2 ∧
      r2.called[0]? = some (some (Val.int 6, set_value_action "cart.total" (Val.int 6))) ∧
    ∃ r3, boolIntStore.dispatch unknownAct = Except.ok r3 ∧
      r3.called[0]? = some none := by
  refine ⟨_, rfl, ?_, _, rfl, ?_, _, rfl, ?_⟩
  · have h := selector_filtering demoStore (set_value_action "user.name" (Val.str "bob"))
      _ 0 _ cartTotalSelector rfl rfl rfl
    exact h.trans (by decide)
  · have h := selector_filtering demoStore (set_value_action "cart.total" (Val.int 6))
      _ 0 _ cartTotalSelector rfl rfl rfl
    exact h.trans (by decide)
  · have h := selector_filtering boolIntStore unknownAct
      _ 0 _ cartTotalSelector rfl rfl rfl
    exact h.trans (by decide)

/-- Claim C7 — Subscriber exceptions are contained: whenever the reducer
succeeds, dispatch returns the post-dispatch state normally no matter what
any subscriber callback does; the new state is committed, every subscriber
receives its notification (the notification pass covers the whole
subscriber list), and a raising callback's exception is converted into a
console diagnostic (`"Error in state subscriber: ..."`) in the dispatch
log instead of propagating. -/
theorem subscriber_exception_contained (st : Store) (a : StateAction) (s' : Val)
    (hred : SimpleStore.reduce st.state a = Except.ok s') :
    ∃ r, st.dispatch a = Except.ok r ∧ r.store.state = s' ∧ r.returned = s' ∧
      r.called.length = st.subscribers.length ∧
      r.store.subscribers.length = st.subscribers.length ∧
      (∀ sub, sub ∈ st.subscribers → sub.selector = none →
        ∀ e, sub.callback s' a = Except.error e →
          subscriberErrMsg e ∈ r.log) := by
  refine ⟨_, dispatch_eq st a s' hred, rfl, rfl, ?_, ?_, ?_⟩
  · exact notifyAll_called_length st.subscribers s' a
  · exact notifyAll_subs_length st.subscribers s' a
  · intro sub hmem hsel e hcb
    refine notifyAll_log_mem st.subscribers s' a sub hmem (subscriberErrMsg e) ?_
    unfold StateSubscriber.notify
    rw [hsel, hcb]
    simp

theorem subscriber_exception_contained_witness :
    SimpleStore.reduce threeSubStore.state unknownAct = Except.ok (Val.dict []) ∧
    ∃ r, threeSubStore.dispatch unknownAct = Except.ok r ∧
      r.store.state = Val.dict [] ∧
      r.called.length = 3 ∧
      subscriberErrMsg "boom" ∈ r.log := by
  refine ⟨rfl, ?_⟩
  obtain ⟨r, hd, hstate, _, hlen, _, hlog⟩ :=
    subscriber_exception_contained threeSubStore unknownAct (Val.dict []) rfl
  refine ⟨r, hd, hstate, ?_, ?_⟩
  · rw [hlen]; rfl
  · exact hlog { callback := failingCallback }
      (List.Mem.tail _ (List.Mem.head _)) rfl "boom" rfl

theorem pyEq_null_iff (v : Val) : pyEq v Val.null = true ↔ v = Val.null := by
  cases v <;> simp [pyEq]

/-- Claim C10 — Immediate initial notification on subscribe:
`Store.subscribe` appends the new subscriber and synchronously performs
exactly one notification with the current state and the action
`StateAction("@@INIT")` before returning.  Without a selector the callback
is always invoked (with the full current state); with a selector the
callback is invoked exactly when the selector of the current state differs
from the fresh subscriber's initial `last_selected_state` of `None` — in
particular it is suppressed when the selector yields `None`. -/
theorem subscribe_init_notify (st : Store)
    (cb : Val → StateAction → Except String Unit) (sel : Option (Val → Val)) :
    initAction.type = "@@INIT" ∧
    (Store.subscribe st cb sel).store.subscribers.length
      = st.subscribers.length + 1 ∧
    (sel = none → (Store.subscribe st cb sel).called = some (st.state, initAction)) ∧
    (∀ f, sel = some f →
      (f st.state = Val.null → (Store.subscribe st cb sel).called = none) ∧
      (f st.state ≠ Val.null →
        (Store.subscribe st cb sel).called = some (f st.state, initAction))) := by
  refine ⟨rfl, ?_, ?_, ?_⟩
  · show (st.subscribers
        ++ [(StateSubscriber.notify { callback := cb, selector := sel }
              st.state initAction).sub]).length = st.subscribers.length + 1
    rw [List.length_append]
    rfl
  · intro hsel
    subst hsel
    unfold Store.subscribe StateSubscriber.notify
    simp only
    cases cb st.state initAction <;> rfl
  · intro f hsel
    subst hsel
    constructor
    · intro hnull
      unfold Store.subscribe StateSubscriber.notify
      simp only
      rw [if_pos ((pyEq_null_iff (f st.state)).mpr hnull)]
    · intro hne
      unfold Store.subscribe StateSubscriber.notify
      simp only
      rw [if_neg (fun h => hne ((pyEq_null_iff (f st.state)).mp h))]
      cases cb (f st.state) initAction <;> rfl

theorem subscribe_init_notify_witness :
    ((none : Option (Val → Val)) = none →
      (Store.subscribe demoStore okCallback none).called
        = some (demoState, initAction)) ∧
    (cartTotalSelector demoState ≠ Val.null →
      (Store.subscribe demoStore okCallback (some cartTotalSelector)).called
        = some (cartTotalSelector demoState, initAction)) ∧
    (cartTotalSelector (Val.dict []) = Val.null →
      (Store.subscribe { state := Val.dict [] } okCallback
          (some cartTotalSelector)).called = none) :=
  ⟨(subscribe_init_notify demoStore okCallback none).2.2.1,
   fun h => ((subscribe_init_notify demoStore okCallback
      (some cartTotalSelector)).2.2.2 cartTotalSelector rfl).2 h,
   fun h => ((subscribe_init_notify { state := Val.dict [] } okCallback
      (some cartTotalSelector)).2.2.2 cartTotalSelector rfl).1 h⟩

/-! ## INCREMENT coercion (C5) -/

theorem reduce_increment (state : Val) (path : String) (amount : Int)
    (hp : path ≠ "") :
    SimpleStore.reduce state (increment_action path amount) =
      match pyAdd (pyOrZero (getValueByPath state path)) (Val.int amount) with
      | .ok sum => setValueByPath state path sum
      | .error e => .error e := by
  unfold SimpleStore.reduce increment_action withPath
  simp only [dictGet, lookupField]
  rw [if_neg (by decide), if_neg (by decide), if_neg (by decide),
      if_neg (by decide), if_neg (by decide), if_pos (by decide)]
  simp [pyTruthy, hp]

/-- Claim C5 (counterexample) — INCREMENT can raise: on the state
`{"count": "abc"}` (a truthy non-numeric value at the path), dispatching
`INCREMENT {path: "count", amount: 1}` evaluates `"abc" + 1` and raises
`TypeError` instead of silently coercing to `0`. -/
theorem increment_coercion_cex :
    SimpleStore.reduce (Val.dict [("count", Val.str "abc")])
        (increment_action "count")
      = Except.error "TypeError: unsupported operand type(s) for +" := rfl

/-- Claim C5 (amended) — INCREMENT coerces only falsy values: with a
non-empty path and an integer amount, the reducer substitutes `0` for the
current value exactly when that value is absent or falsy (`None`, `False`,
`0`, `""`, `[]`, the empty dict — via `current_value or 0`), and adds
integers normally; but a truthy non-numeric current value (e.g. a non-empty
string) makes `current_value + amount` raise `TypeError` — the dispatch
fails rather than coercing. -/
theorem increment_coercion_amended (state : Val) (path : String) (amount : Int)
    (hp : path ≠ "") :
    (pyTruthy (getValueByPath state path) = false →
        SimpleStore.reduce state (increment_action path amount)
          = setValueByPath state path (Val.int amount)) ∧
    (∀ n : Int, getValueByPath state path = Val.int n →
        SimpleStore.reduce state (increment_action path amount)
          = setValueByPath state path (Val.int (n + amount))) ∧
    (∀ s : String, getValueByPath state path = Val.str s → s ≠ "" →
        SimpleStore.reduce state (increment_action path amount)
          = Except.error "TypeError: unsupported operand type(s) for +") := by
  have hrw := reduce_increment state path amount hp
  refine ⟨?_, ?_, ?_⟩
  · intro hfal
    rw [hrw]
    simp [pyOrZero, hfal, pyAdd]
  · intro n hn
    rw [hrw, hn]
    by_cases hn0 : n = 0 <;> simp [pyOrZero, pyTruthy, pyAdd, hn0]
  · intro s hs hsne
    rw [hrw, hs]
    simp [pyOrZero, pyTruthy, pyAdd, hsne]

theorem increment_coercion_amended_witness :
    ("count" ≠ "") ∧
    pyTruthy (getValueByPath (Val.dict []) "count") = false ∧
    SimpleStore.reduce (Val.dict []) (increment_action "count" 3)
      = setValueByPath (Val.dict []) "count" (Val.int 3) ∧
    setValueByPath (Val.dict []) "count" (Val.int 3)
      = Except.ok (Val.dict [("count", Val.int 3)]) :=
  ⟨by decide, rfl,
   (increment_coercion_amended (Val.dict []) "count" 3 (by decide)).1 rfl, rfl⟩

/-! ## Lock extent during notification (C8) -/

/-- Claim C8 (counterexample) — the lock is NOT released before subscriber
callbacks run: in the event trace of a dispatch on a store with one
subscriber, the notification event occurs before the lock-release event
(`_notify_subscribers` is called inside the `with self._lock:` block), so
"the store's lock is released before any subscriber callback is invoked"
is false. -/
theorem lock_release_cex :
    lockReleasedBeforeNotify (dispatchEventTrace 1) = false := by decide

/-- Claim C8 (amended) — subscriber notification happens while the lock is
held: in every dispatch event trace the release event is the last event and
every notification event precedes it (so a subscriber that synchronously
re-dispatches to the same store would try to re-acquire the
non-reentrant lock it is already under and deadlock). -/
theorem notify_under_lock (n : Nat) :
    ∃ pre, dispatchEventTrace n = pre ++ [DispatchEvent.releaseLock] ∧
      pre.head? = some DispatchEvent.acquireLock ∧
      (∀ i, i < n → DispatchEvent.notifySubscriber i ∈ pre) := by
  refine ⟨[DispatchEvent.acquireLock, DispatchEvent.runReduce,
           DispatchEvent.commitState, DispatchEvent.appendHistory]
            ++ (List.range n).map DispatchEvent.notifySubscriber, ?_, rfl, ?_⟩
  · simp [dispatchEventTrace]
  · intro i hi
    simp only [List.mem_append, List.mem_map, List.mem_range]
    exact Or.inr ⟨i, hi, rfl⟩

theorem notify_under_lock_witness :
    ∃ pre, dispatchEventTrace 1 = pre ++ [DispatchEvent.releaseLock] ∧
      pre.head? = some DispatchEvent.acquireLock ∧
      (∀ i, i < 1 → DispatchEvent.notifySubscriber i ∈ pre) :=
  notify_under_lock 1

/-! ## Component id generation (C9) -/

theorem toLEBytes_length (n : Nat) : ∀ c : Nat, (toLEBytes n c).length = c := by
  intro c
  induction c generalizing n with
  | zero => rfl
  | succ k ih => simp [toLEBytes, ih]

theorem md5Bytes_length (msg : List Nat) : (md5Bytes msg).length = 16 := by
  unfold md5Bytes
  simp [List.length_append, toLEBytes_length]

theorem hexChars_length (bs : List Nat) : (hexChars bs).length = 2 * bs.length := by
  induction bs with
  | nil => rfl
  | cons b rest ih => simp [hexChars, ih]; omega

/-- Claim C9 (counterexample) — ids are not unique per mounted instance:
`generate_component_id` is a pure function of the component name and the
serialized props (it has no per-call counter or randomness), so calling it
twice for two mounts of the same component name with equal props yields the
exact same 8-character id — here, `"876773c9"` both times for
`("counter", {})` — not two distinct ids. -/
theorem component_id_cex :
    generate_component_id "counter" [] = generate_component_id "counter" [] ∧
    generate_component_id "counter" [] = "876773c9" := ⟨rfl, by decide⟩

/-- Claim C9 (amended) — the id assigned by
`StateManager.generate_component_id` is the first 8 hex characters of the
MD5 of `f"{component_name}:{json.dumps(props, sort_keys=True)}"`: it is
always exactly 8 characters long and depends only on the component name and
the sorted-key JSON serialization of the props, so two mounts with the same
name and props receive the same id (ids distinguish `(name, props)`
combinations, not mounted instances). -/
theorem component_id_amended :
    (∀ (name : String) (p q : List (String × Val)),
        jsonDumps (sortVal (Val.dict p)) = jsonDumps (sortVal (Val.dict q)) →
        generate_component_id name p = generate_component_id name q) ∧
    (∀ (name : String) (props : List (String × Val)),
        (generate_component_id name props).length = 8) := by
  constructor
  · intro name p q h
    unfold generate_component_id
    rw [h]
  · intro name props
    show (String.mk ((hexChars (md5Bytes _)).take 8)).length = 8
    show ((hexChars (md5Bytes _)).take 8).length = 8
    rw [List.length_take, hexChars_length, md5Bytes_length]
    decide

theorem component_id_amended_witness :
    jsonDumps (sortVal (Val.dict [("b", Val.int 1), ("a", Val.int 2)]))
      = jsonDumps (sortVal (Val.dict [("a", Val.int 2), ("b", Val.int 1)])) ∧
    generate_component_id "counter" [("b", Val.int 1), ("a", Val.int 2)]
      = generate_component_id "counter" [("a", Val.int 2), ("b", Val.int 1)] ∧
    (generate_component_id "counter" []).length = 8 :=
  ⟨by decide,
   component_id_amended.1 "counter" [("b", Val.int 1), ("a", Val.int 2)]
     [("a", Val.int 2), ("b", Val.int 1)] (by decide),
   component_id_amended.2 "counter" []⟩
